import Mathlib

/-!
Shallow embedding of the per-conversation response scheduler of the
WhatsApp-bot backend (src/backend/src/modules/ai), together with the
orchestration-settings service, and a small-step operational model of the
event loop that drives `processIncomingMessage`
(message-orchestrator.service.ts).

Modelling conventions:
* The three mutable maps of `MessageOrchestratorService`
  (`activeProcessIds`, `pendingMessageTimeouts`, `escalatedConversations`)
  and the override map of `AiSettingsService` are association lists with
  erase-then-cons insertion, so keys are never duplicated.
* `processId` values (`Date.now().toString() + Math.random().toString()` in
  the source, assumed unique) are modelled by a fresh-counter `Nat`.
* `setTimeout` handles are modelled by fresh-counter timer ids; `clearTimeout`
  removes the timer from the live-timer list and is a no-op on a timer that
  has already expired (its callback is queued or ran), matching Node.
* The body of the `setTimeout` callback (lines 112-198 of the source) is cut
  at its `await` suspension points into segments (`stepTask`); the two
  generation-currency checks (line 115 at fire, line 139 after the typing
  delay) read the `activeProcessIds` entry current at that moment.
* External collaborator outcomes (history fetch, generator call, success of
  the throwing customer `sendText`) are an `Oracle` fixed per submission.
* Observable collaborator calls are recorded as `Event`s; the system trace
  tags each event with the generation (processId) that emitted it, a ghost
  annotation used only by the specification.
-/

namespace BpjsAi

/-- A stored chat message as returned by `ChatService.getMessageHistory`,
restricted to the fields the orchestrator reads (`fromMe`, `body`). -/
structure Msg where
  fromMe : Bool
  body : String
  deriving DecidableEq, Repr

/-- Embeds `MessageOrchestratorConfig` (message-orchestrator.service.ts, lines 7-11):
three optional booleans. -/
structure OrchConfig where
  sendSeenStatus : Option Bool := none
  showTypingIndicator : Option Bool := none
  skipAiResponse : Option Bool := none
  deriving DecidableEq, Repr

/-- The TS test `config.sendSeenStatus !== false` (line 126). -/
def seenOn (c : OrchConfig) : Bool := c.sendSeenStatus ≠ some false

/-- The TS test `config.showTypingIndicator !== false` (lines 130, 151, 171, 194). -/
def typingOn (c : OrchConfig) : Bool := c.showTypingIndicator ≠ some false

/-- The TS truthiness test `if (config.skipAiResponse)` (line 92). -/
def skipOn (c : OrchConfig) : Bool := c.skipAiResponse = some true

instance {ε α : Type} [DecidableEq ε] [DecidableEq α] :
    DecidableEq (Except ε α) := fun a b =>
  match a, b with
  | .error e, .error f =>
    if h : e = f then .isTrue (by rw [h])
    else .isFalse (by intro hc; cases hc; exact h rfl)
  | .ok x, .ok y =>
    if h : x = y then .isTrue (by rw [h])
    else .isFalse (by intro hc; cases hc; exact h rfl)
  | .error _, .ok _ => .isFalse (by intro hc; cases hc)
  | .ok _, .error _ => .isFalse (by intro hc; cases hc)

/-- Outcomes of the external collaborators consulted by one timer callback:
the history fetch (`chatService.getMessageHistory`, may throw), the generator
(`aiAgentService.generateResponseWithEscalation`, may throw), and whether the
throwing customer `sendText` inside `sendResponse` succeeds. -/
structure Oracle where
  history : Except Unit (List Msg)
  gen : Except Unit (String × Bool)
  sendOk : Bool
  deriving DecidableEq, Repr

/-- Observable calls made by the orchestrator. `sendSeen`, `typingStart`,
`typingStop` and `sendText` are the raw `wahaApiService` transport calls;
`generateCall` marks the invocation of the generator with the context length;
`notifyCall` marks the invocation of `notifyHumanAgent`; `apologyCall` marks
the invocation of `sendErrorResponse`, which performs a `sendText` of the
fixed apology text with its own failure swallowed. -/
inductive Event where
  | sendSeen (chatId session : String)
  | typingStart (chatId session : String)
  | typingStop (chatId session : String)
  | sendText (chatId text session : String)
  | generateCall (ctxLen : Nat)
  | notifyCall (phone session : String)
  | apologyCall (chatId session : String)
  deriving DecidableEq, Repr

/-- Association-list lookup, the `Map.get` of the TS maps. -/
def alookup {α : Type} (m : List (String × α)) (k : String) : Option α :=
  (m.find? (fun p => p.1 = k)).map (fun p => p.2)

/-- Association-list insert (`Map.set`): erase the key, then cons. -/
def ainsert {α : Type} (m : List (String × α)) (k : String) (v : α) :
    List (String × α) :=
  (k, v) :: m.filter (fun p => p.1 ≠ k)

/-- Association-list erase (`Map.delete`). -/
def aerase {α : Type} (m : List (String × α)) (k : String) :
    List (String × α) :=
  m.filter (fun p => p.1 ≠ k)

/-- State of `AiSettingsService` (ai-settings.service.ts): the global switch
`orchestratorEnabled` (initially true) and the per-chat override map
`chatOverrides`. -/
structure Settings where
  orchestratorEnabled : Bool
  chatOverrides : List (String × Bool)
  deriving DecidableEq, Repr

/-- Embeds `AiSettingsService.isOrchestratorEnabled` (ai-settings.service.ts,
lines 28-39): false when the global switch is off; else true when no phone is
given; else the override when present, true otherwise. -/
def isOrchestratorEnabled (s : Settings) (phoneNumber : Option String) : Bool :=
  if !s.orchestratorEnabled then false
  else
    match phoneNumber with
    | none => true
    | some p =>
      match alookup s.chatOverrides p with
      | some override => override
      | none => true

/-- Embeds `makeEscalationKey` (lines 20-22): the string `session:phoneNumber`. -/
def makeEscalationKey (phoneNumber session : String) : String :=
  session ++ ":" ++ phoneNumber

/-- Embeds `isConversationEscalated` (lines 24-27):
`escalatedConversations.get(key) === true`. -/
def isConversationEscalated (m : List (String × Bool))
    (phoneNumber session : String) : Bool :=
  alookup m (makeEscalationKey phoneNumber session) = some true

/-- Embeds `setConversationEscalated` (lines 29-42): set the key to true, or delete
the key, on the escalation map; nothing else is touched. -/
def setConversationEscalated (m : List (String × Bool))
    (phoneNumber session : String) (value : Bool) : List (String × Bool) :=
  if value then ainsert m (makeEscalationKey phoneNumber session) true
  else aerase m (makeEscalationKey phoneNumber session)

/-- The fixed default greeting (line 156). -/
def defaultGreeting : String := "Halo! Ada yang bisa saya bantu?"

/-- The fixed apology text sent by `sendErrorResponse` (line 315). -/
def apologyText : String :=
  "Maaf, terjadi kesalahan. Mohon coba lagi atau hubungi admin kami."

/-- The last non-bot message body used in the escalation alert (lines
278-280): `[...history].reverse().find(m => !m.fromMe)?.body || fallback`,
where an empty body is falsy and also yields the fallback. -/
def lastUserMsgText (history : List Msg) : String :=
  match history.reverse.find? (fun m => !m.fromMe) with
  | some m => if m.body = "" then "(tidak ada teks pengguna)" else m.body
  | none => "(tidak ada teks pengguna)"

/-- Text of the escalation alert sent to the human CS chat (lines 282-287,
emoji omitted). -/
def escalationAlertText (customerPhone session : String)
    (history : List Msg) : String :=
  "*Escalation to Human CS*\n\n*Customer*: " ++ customerPhone ++
  "\n*Session*: " ++ session ++ "\n\n*Last user message:*\n" ++
  lastUserMsgText history ++
  "\n\n_AI menandai kasus ini perlu ditindaklanjuti oleh petugas manusia._"

/-- Events emitted by `notifyHumanAgent` (lines 264-305): the invocation
itself, then, when `HUMAN_CS_WHATSAPP_ID` is non-empty, a `sendText` to that
chat id whose failure is caught internally; with an empty id the alert is
skipped. -/
def notifyHumanAgent (csChatId customerPhone session : String)
    (history : List Msg) : List Event :=
  Event.notifyCall customerPhone session ::
    (if csChatId = "" then []
     else [Event.sendText csChatId
            (escalationAlertText customerPhone session history) session])

/-- Events emitted by `sendErrorResponse` (lines 311-321): the apology
`sendText` call, own failure swallowed. -/
def sendErrorResponse (chatId session : String) : List Event :=
  [Event.apologyCall chatId session]

/-- Progress of a fired timer callback between its suspension points. -/
inductive Phase where
  | fired
  | sleeping
  | beforeHistory
  | beforeGenerate (history : List Msg)
  deriving DecidableEq, Repr

/-- A fired timer callback still running: the closure data captured at
`setTimeout` (line 112) plus the current phase. -/
structure Task where
  phone : String
  session : String
  cfg : OrchConfig
  pid : Nat
  oracle : Oracle
  phase : Phase
  deriving DecidableEq, Repr

/-- Effect of running one segment of a callback: the events emitted, the next
phase (none when the callback returns), whether it deleted the pending-timer
entry (line 121) and whether it set the escalation flag (line 177). -/
structure SegResult where
  events : List Event
  next : Option Phase
  deletePending : Bool
  setEscalated : Bool
  deriving DecidableEq, Repr

/-- Events of the catch block of the callback (lines 191-198): stop typing
when the typing indicator is configured on, then `sendErrorResponse`. -/
def errorPathEvents (t : Task) : List Event :=
  (if typingOn t.cfg then [Event.typingStop t.phone t.session] else []) ++
  sendErrorResponse t.phone t.session

/-- One segment of the `setTimeout` callback (lines 112-198), from one
suspension point to the next. `currentPid` is the `activeProcessIds` entry
for the phone of the task at this moment; `csChatId` is `HUMAN_CS_WHATSAPP_ID`.
* `.fired` (lines 114-144): currency check; on pass, delete the pending
  entry, emit seen (if configured) and typing-start (if configured), then
  sleep for the typing duration (phase `.sleeping`) or go straight to the
  history fetch.
* `.sleeping` (lines 139-143): second currency check; on failure emit
  typing-stop and return.
* `.beforeHistory` (lines 147-160): consume the history result; a throw
  takes the catch path; empty history stops typing, sends the default
  greeting, and on send failure takes the catch path; otherwise invoke the
  generator.
* `.beforeGenerate` (lines 163-190): consume the generator result; a throw
  takes the catch path; otherwise stop typing, then either escalate (set the
  flag, notify the human agent, send nothing to the customer) or send the
  reply, taking the catch path when the send fails. -/
def stepTask (t : Task) (currentPid : Option Nat) (csChatId : String) :
    SegResult :=
  match t.phase with
  | .fired =>
    if currentPid ≠ some t.pid then
      { events := [], next := none, deletePending := false,
        setEscalated := false }
    else
      { events :=
          (if seenOn t.cfg then [Event.sendSeen t.phone t.session] else []) ++
          (if typingOn t.cfg then [Event.typingStart t.phone t.session]
           else []),
        next := some (if typingOn t.cfg then .sleeping else .beforeHistory),
        deletePending := true, setEscalated := false }
  | .sleeping =>
    if currentPid ≠ some t.pid then
      { events := [Event.typingStop t.phone t.session], next := none,
        deletePending := false, setEscalated := false }
    else
      { events := [], next := some .beforeHistory, deletePending := false,
        setEscalated := false }
  | .beforeHistory =>
    match t.oracle.history with
    | .error _ =>
      { events := errorPathEvents t, next := none, deletePending := false,
        setEscalated := false }
    | .ok [] =>
      let base :=
        (if typingOn t.cfg then [Event.typingStop t.phone t.session]
         else []) ++ [Event.sendText t.phone defaultGreeting t.session]
      { events := if t.oracle.sendOk then base else base ++ errorPathEvents t,
        next := none, deletePending := false, setEscalated := false }
    | .ok (m :: ms) =>
      { events := [Event.generateCall (m :: ms).length],
        next := some (.beforeGenerate (m :: ms)), deletePending := false,
        setEscalated := false }
  | .beforeGenerate history =>
    match t.oracle.gen with
    | .error _ =>
      { events := errorPathEvents t, next := none, deletePending := false,
        setEscalated := false }
    | .ok (text, escalate) =>
      let stopE :=
        if typingOn t.cfg then [Event.typingStop t.phone t.session] else []
      if escalate then
        { events :=
            stopE ++ notifyHumanAgent csChatId t.phone t.session history,
          next := none, deletePending := false, setEscalated := true }
      else
        let sendE := stopE ++ [Event.sendText t.phone text t.session]
        { events :=
            if t.oracle.sendOk then sendE else sendE ++ errorPathEvents t,
          next := none, deletePending := false, setEscalated := false }

/-- Run the remaining segments of a callback with a fixed currency reading,
bounded by fuel (three segments always suffice after `.fired`). Returns the
emitted events and whether the escalation flag was set. -/
def runPhases : Nat → Task → Option Nat → String → List Event × Bool
  | 0, _, _, _ => ([], false)
  | fuel + 1, t, cur, cs =>
    let r := stepTask t cur cs
    match r.next with
    | none => (r.events, r.setEscalated)
    | some p =>
      let rest := runPhases fuel { t with phase := p } cur cs
      (r.events ++ rest.1, r.setEscalated || rest.2)

/-- The whole `setTimeout` callback body (lines 112-198) as a function of the
closure data, the currency readings at its two checks (`cur1` at fire,
`cur2` after the typing delay), the collaborator oracle and the CS chat id.
Returns the events emitted by this generation and whether it set the
escalation flag. -/
def callbackRun (phone session : String) (cfg : OrchConfig) (pid : Nat)
    (cur1 cur2 : Option Nat) (o : Oracle) (csChatId : String) :
    List Event × Bool :=
  let t1 : Task := ⟨phone, session, cfg, pid, o, .fired⟩
  let r1 := stepTask t1 cur1 csChatId
  match r1.next with
  | none => (r1.events, r1.setEscalated)
  | some p =>
    let rest := runPhases 3 { t1 with phase := p } cur2 csChatId
    (r1.events ++ rest.1, r1.setEscalated || rest.2)

/-- Global state of the embedded system: the settings service, the
environment variable `HUMAN_CS_WHATSAPP_ID`, the fresh counters for process
ids and timer handles, the three maps of `MessageOrchestratorService`, the
live (not yet expired, not cancelled) timers, the running callbacks, and the
ghost trace of emitted events tagged by generation. -/
structure Timer where
  tid : Nat
  phone : String
  session : String
  cfg : OrchConfig
  pid : Nat
  oracle : Oracle
  deriving DecidableEq, Repr

structure Sys where
  settings : Settings
  csChatId : String
  nextPid : Nat
  nextTid : Nat
  active : List (String × Nat)
  pending : List (String × Nat)
  timers : List Timer
  tasks : List Task
  escalated : List (String × Bool)
  trace : List (Nat × Event)
  deriving DecidableEq, Repr

/-- Scheduler actions chosen by the environment: an inbound submission
(a `processIncomingMessage` call, with the oracle for its eventual
callback), the expiry of a live timer (its callback joins the task queue),
and the event loop running the next segment of task `i`. -/
inductive Act where
  | submit (phone session : String) (cfg : OrchConfig) (o : Oracle)
  | expire (tid : Nat)
  | advance (i : Nat)
  deriving DecidableEq, Repr

/-- The synchronous part of `processIncomingMessage` (lines 68-207): the
three gates (settings, escalation, `skipAiResponse`), then mint a process id
and store it as current, cancel the pending timer if any, create the new
timer and store its handle as pending. -/
def submitStep (phone session : String) (cfg : OrchConfig) (o : Oracle)
    (s : Sys) : Sys :=
  if !isOrchestratorEnabled s.settings (some phone) then s
  else if isConversationEscalated s.escalated phone session then s
  else if skipOn cfg then s
  else
    let pid := s.nextPid
    let timers1 :=
      match alookup s.pending phone with
      | some tid0 => s.timers.filter (fun tm => tm.tid ≠ tid0)
      | none => s.timers
    let tid := s.nextTid
    { s with
      nextPid := pid + 1
      nextTid := tid + 1
      active := ainsert s.active phone pid
      timers := timers1 ++ [⟨tid, phone, session, cfg, pid, o⟩]
      pending := ainsert s.pending phone tid }

/-- Expiry of timer `tid`: the timer leaves the live list (it can no longer
be cancelled) and its callback joins the task queue at phase `.fired`. -/
def expireStep (tid : Nat) (s : Sys) : Sys :=
  match s.timers.find? (fun tm => tm.tid = tid) with
  | none => s
  | some tm =>
    { s with
      timers := s.timers.filter (fun tm2 => tm2.tid ≠ tid)
      tasks :=
        s.tasks ++ [⟨tm.phone, tm.session, tm.cfg, tm.pid, tm.oracle, .fired⟩] }

/-- The event loop runs the next segment of task `i`, reading the current
process id for the phone of the task, then applies the effects of the segment. -/
def advanceStep (i : Nat) (s : Sys) : Sys :=
  match s.tasks[i]? with
  | none => s
  | some t =>
    let r := stepTask t (alookup s.active t.phone) s.csChatId
    { s with
      pending := if r.deletePending then aerase s.pending t.phone
                 else s.pending
      escalated :=
        if r.setEscalated then
          setConversationEscalated s.escalated t.phone t.session true
        else s.escalated
      tasks :=
        match r.next with
        | none => s.tasks.eraseIdx i
        | some p => s.tasks.set i { t with phase := p }
      trace := s.trace ++ r.events.map (fun e => (t.pid, e)) }

/-- One environment-chosen step. -/
def stepA (a : Act) (s : Sys) : Sys :=
  match a with
  | .submit phone session cfg o => submitStep phone session cfg o s
  | .expire tid => expireStep tid s
  | .advance i => advanceStep i s

/-- Run a schedule of steps. -/
def runActs (acts : List Act) (s : Sys) : Sys :=
  acts.foldl (fun s a => stepA a s) s

/-- Initial system state: orchestration globally enabled with no overrides,
empty maps, fresh counters at zero. -/
def initSys (csChatId : String) : Sys :=
  { settings := { orchestratorEnabled := true, chatOverrides := [] }
    csChatId := csChatId
    nextPid := 0
    nextTid := 0
    active := []
    pending := []
    timers := []
    tasks := []
    escalated := []
    trace := [] }

/-- Discriminator: is the event a typing-start signal. -/
def isTypingStart : Event → Bool
  | .typingStart _ _ => true
  | _ => false

/-- Discriminator: is the event a typing-stop signal. -/
def isTypingStop : Event → Bool
  | .typingStop _ _ => true
  | _ => false

/-- Discriminator: is the event an invocation of `sendErrorResponse`. -/
def isApology : Event → Bool
  | .apologyCall _ _ => true
  | _ => false

/-- Discriminator: is the event an invocation of `notifyHumanAgent`. -/
def isNotify : Event → Bool
  | .notifyCall _ _ => true
  | _ => false

/-- Discriminator: is the event an invocation of the generator. -/
def isGenerate : Event → Bool
  | .generateCall _ => true
  | _ => false

/-- Discriminator: is the event a `sendText` addressed to `phone`. -/
def sendTextTo (phone : String) : Event → Bool
  | .sendText c _ _ => c = phone
  | _ => false

/-- Discriminator: does the event witness that a pipeline execution reached
the send-reply or notify-human step for customer `phone` (a `sendText`
addressed to the customer, or the `notifyHumanAgent` invocation for them).
The apology of the catch path is not such a step. -/
def reachb (phone : String) : Event → Bool
  | .sendText c _ _ => c = phone
  | .notifyCall p _ => p = phone
  | _ => false

/-- Events emitted by one whole generation, as a function of its inputs. -/
def genEvents (phone session : String) (cfg : OrchConfig) (pid : Nat)
    (cur1 cur2 : Option Nat) (o : Oracle) (cs : String) : List Event :=
  (callbackRun phone session cfg pid cur1 cur2 o cs).1

/-- Number of typing-stop signals emitted strictly before the first
invocation of `sendErrorResponse` in an event list. -/
def stopsBeforeApology (evs : List Event) : Nat :=
  (evs.takeWhile (fun e => !isApology e)).countP isTypingStop

/-- Number of live entities (timers or queued/running callbacks) owned by
generation `p`. -/
def occ (p : Nat) (s : Sys) : Nat :=
  s.timers.countP (fun tm => tm.pid = p) +
  s.tasks.countP (fun t => t.pid = p)

/-- Number of trace events of generation `p` that reach the send-reply or
notify-human step for customer `phone`. -/
def reachCount (p : Nat) (phone : String) (s : Sys) : Nat :=
  s.trace.countP (fun e => decide (e.1 = p) && reachb phone e.2)

/-- Generation `p` is dead: its id has been minted, and no timer, task or
trace event carries it; a dead generation can never emit anything. -/
def Dead (p : Nat) (s : Sys) : Prop :=
  p < s.nextPid ∧ (∀ tm ∈ s.timers, tm.pid ≠ p) ∧
  (∀ t ∈ s.tasks, t.pid ≠ p) ∧ (∀ e ∈ s.trace, e.1 ≠ p)

/-- Freshness well-formedness: every recorded generation id is below the
fresh-id counter and every timer handle is below the fresh-handle counter. -/
def WF (s : Sys) : Prop :=
  (∀ tm ∈ s.timers, tm.pid < s.nextPid ∧ tm.tid < s.nextTid) ∧
  (∀ t ∈ s.tasks, t.pid < s.nextPid) ∧
  (∀ e ∈ s.trace, e.1 < s.nextPid)

/-- Single-ownership invariant for generation `p` of customer `phone`: its
id is minted, all its entities belong to `phone`, it owns at most one live
entity, it has reached the send/notify step at most once, and having reached
it, it owns no live entity any more. -/
def OccR (p : Nat) (phone : String) (s : Sys) : Prop :=
  p < s.nextPid ∧
  (∀ tm ∈ s.timers, tm.pid = p → tm.phone = phone) ∧
  (∀ t ∈ s.tasks, t.pid = p → t.phone = phone) ∧
  occ p s ≤ 1 ∧
  reachCount p phone s ≤ 1 ∧
  (1 ≤ reachCount p phone s → occ p s = 0)

/-- The newest accepted generation `p` for `phone` right after its
submission: its id is minted, the pending map holds a handle that every
timer of `p` carries (so the `clearTimeout` of the next submission cancels them
all), `p` owns at most one timer and no task, its timers belong to `phone`,
and it has emitted nothing. -/
def Linked (p : Nat) (phone : String) (s : Sys) : Prop :=
  p < s.nextPid ∧
  (∃ tid, alookup s.pending phone = some tid ∧
    ∀ tm ∈ s.timers, tm.pid = p → tm.tid = tid) ∧
  s.timers.countP (fun tm => tm.pid = p) ≤ 1 ∧
  (∀ tm ∈ s.timers, tm.pid = p → tm.phone = phone) ∧
  (∀ t ∈ s.tasks, t.pid ≠ p) ∧
  (∀ e ∈ s.trace, e.1 ≠ p)

/-- A submission passes the three gates of `processIncomingMessage`. -/
def Accepted (s : Sys) (phone session : String) (cfg : OrchConfig) : Prop :=
  isOrchestratorEnabled s.settings (some phone) = true ∧
  isConversationEscalated s.escalated phone session = false ∧
  skipOn cfg = false

/-- The schedule of a burst: one submission per element, same key. -/
def burstActs (phone session : String)
    (burst : List (OrchConfig × Oracle)) : List Act :=
  burst.map (fun co => Act.submit phone session co.1 co.2)

/-- Oracle of a run whose generator answers normally. -/
def oOk : Oracle := ⟨.ok [⟨false, "halo"⟩], .ok ("jawaban", false), true⟩

/-- Oracle of a run whose generator asks for escalation. -/
def oEsc : Oracle := ⟨.ok [⟨false, "tolong cs"⟩], .ok ("jawaban", true), true⟩

/-- Oracle of a run whose generator throws. -/
def oErr : Oracle := ⟨.ok [⟨false, "halo"⟩], .error (), true⟩

/-- Oracle of a run whose customer send fails. -/
def oSendFail : Oracle := ⟨.ok [⟨false, "halo"⟩], .ok ("jawaban", false), false⟩

/-- Schedule: a submission runs up to its generator call, a second
submission supersedes it, then the generator of the first generation throws. -/
def c1Schedule : List Act :=
  [.submit "p" "s" {} oErr, .expire 0, .advance 0, .advance 0, .advance 0,
   .submit "p" "s" {} oOk, .advance 0]

/-- Schedule: a first generation escalates while the timer of a second submission
is pending; afterwards the second generation runs to completion. -/
def c3Schedule : List Act :=
  [.submit "p" "s" {} oEsc, .expire 0, .advance 0, .advance 0, .advance 0,
   .submit "p" "s" {} oOk, .advance 0]

/-- Continuation of `c3Schedule`: the pending second generation fires and
runs all its segments. -/
def c3ScheduleFull : List Act :=
  c3Schedule ++ [.expire 1, .advance 0, .advance 0, .advance 0, .advance 0]

/-- Schedule: two submissions for the same phone under different sessions. -/
def c4Schedule : List Act :=
  [.submit "p" "sessA" {} oOk, .submit "p" "sessB" {} oOk]

/-- C5 counterexample: with the global switch off and a per-chat override set
to true, `isOrchestratorEnabled` returns false, not the override value, so an
override does not win regardless of the global switch. -/
theorem C5_counterexample :
    isOrchestratorEnabled ⟨false, [("628", true)]⟩ (some "628") = false ∧
    alookup (Settings.chatOverrides ⟨false, [("628", true)]⟩) "628" =
      some true := by
  decide

/-- C5 (amended): enabled(key) is the conjunction of the global switch with
the override: false whenever the global switch is off; when it is on, an
override (if present) wins and absence yields true. -/
theorem C5_override_amended (g : Bool) (ov : List (String × Bool))
    (p : String) :
    isOrchestratorEnabled ⟨g, ov⟩ (some p) =
      (g && (alookup ov p).getD true) := by
  cases g
  · simp [isOrchestratorEnabled]
  · simp only [isOrchestratorEnabled, Bool.not_true]
    cases h : alookup ov p <;> simp [h]

/-- C8: when orchestration is disabled for the phone or the conversation is
escalated at submission time, `processIncomingMessage` returns with the state
unchanged: no token minted, no timer started or cancelled, no event. -/
theorem C8_gated_submit_noop (s : Sys) (phone session : String)
    (cfg : OrchConfig) (o : Oracle)
    (h : isOrchestratorEnabled s.settings (some phone) = false ∨
      isConversationEscalated s.escalated phone session = true) :
    stepA (.submit phone session cfg o) s = s := by
  rcases h with h | h
  · simp [stepA, submitStep, h]
  · by_cases he : isOrchestratorEnabled s.settings (some phone)
    · simp [stepA, submitStep, he, h]
    · simp [stepA, submitStep, he]

/-- C8 witness: a submission for an escalated conversation is a no-op. -/
theorem C8_gated_submit_noop_witness :
    stepA (.submit "p" "s" {} oOk)
      { initSys "cs" with escalated := [("s:p", true)] } =
      { initSys "cs" with escalated := [("s:p", true)] } :=
  C8_gated_submit_noop _ "p" "s" {} oOk (Or.inr (by decide))

/-- C10: a submission with `skipAiResponse = true` returns before minting a
generation token and before touching any map: the whole state is unchanged,
so it never supersedes or cancels an in-flight pipeline. -/
theorem C10_skip_submit_noop (s : Sys) (phone session : String)
    (cfg : OrchConfig) (o : Oracle) (h : cfg.skipAiResponse = some true) :
    stepA (.submit phone session cfg o) s = s := by
  by_cases h1 : isOrchestratorEnabled s.settings (some phone)
  · by_cases h2 : isConversationEscalated s.escalated phone session
    · simp [stepA, submitStep, h1, h2]
    · simp [stepA, submitStep, h1, h2, skipOn, h]
  · simp [stepA, submitStep, h1]

/-- C10 witness: a media-message submission leaves the initial state as is. -/
theorem C10_skip_submit_noop_witness :
    stepA (.submit "p" "s" { skipAiResponse := some true } oOk)
      (initSys "cs") = initSys "cs" :=
  C10_skip_submit_noop _ "p" "s" _ oOk rfl

/-- C2 counterexample: a generation that stays current, generates a reply,
and whose customer send fails emits one typing-start but two typing-stops
(the normal stop before the send, then the stop of the catch path), so
"exactly one typing-stop per typing-start" fails. -/
theorem C2_counterexample :
    ((callbackRun "p" "s" {} 0 (some 0) (some 0) oSendFail "cs").1.countP
        isTypingStart = 1) ∧
    ((callbackRun "p" "s" {} 0 (some 0) (some 0) oSendFail "cs").1.countP
        isTypingStop = 2) := by
  decide

/-- C1 counterexample: generation 0 passes both currency checks, is
superseded by a new submission while its generator call is in flight, the
generator then throws, and the superseded generation still sends the apology
to the customer, although its token (0) is no longer the current one (1). -/
theorem C1_counterexample :
    (0, Event.apologyCall "p" "s") ∈ (runActs c1Schedule (initSys "cs")).trace ∧
    alookup (runActs c1Schedule (initSys "cs")).active "p" = some 1 := by
  decide

/-- C3 counterexample: generation 0 escalates while generation 1 (submitted
while the generator call of generation 0 was in flight) still has a pending timer; after the
escalated flag is set, the pending timer is not cleared (handle 1 is still
pending and live) and the current token is not invalidated (still 1); the
in-flight pipeline of generation 1 later runs to completion and sends its
reply to the customer although the conversation is escalated. -/
theorem C3_counterexample :
    (isConversationEscalated (runActs c3Schedule (initSys "cs")).escalated
        "p" "s" = true) ∧
    alookup (runActs c3Schedule (initSys "cs")).pending "p" = some 1 ∧
    (runActs c3Schedule (initSys "cs")).timers.map Timer.tid = [1] ∧
    alookup (runActs c3Schedule (initSys "cs")).active "p" = some 1 ∧
    (1, Event.sendText "p" "jawaban" "s") ∈
      (runActs c3ScheduleFull (initSys "cs")).trace := by
  decide

/-- C4 counterexample: two submissions for the same phone under different
session identifiers do not keep separate state: the second replaces the
current token of the first (the token map holds 1 for the phone) and cancels the
timer of the first (no timer of generation 0 remains). -/
theorem C4_counterexample :
    alookup (runActs c4Schedule (initSys "cs")).active "p" = some 1 ∧
    (runActs c4Schedule (initSys "cs")).timers.map Timer.pid = [1] ∧
    alookup (runActs c4Schedule (initSys "cs")).pending "p" = some 1 := by
  decide

/-- C9: a pipeline execution that reaches the history fetch (its token was
current at fire and, when typing is shown, after the typing delay) and gets
an empty history sends the fixed default greeting to the customer, never
invokes the generator, never notifies a human, and does not escalate. -/
theorem C9_empty_history_greeting (phone session : String) (cfg : OrchConfig)
    (pid : Nat) (cur1 cur2 : Option Nat) (o : Oracle) (cs : String)
    (h1 : cur1 = some pid) (h2 : typingOn cfg = true → cur2 = some pid)
    (hh : o.history = .ok []) :
    Event.sendText phone defaultGreeting session ∈
      genEvents phone session cfg pid cur1 cur2 o cs ∧
    (genEvents phone session cfg pid cur1 cur2 o cs).countP isGenerate = 0 ∧
    (genEvents phone session cfg pid cur1 cur2 o cs).countP isNotify = 0 ∧
    (callbackRun phone session cfg pid cur1 cur2 o cs).2 = false := by
  subst h1
  by_cases ht : typingOn cfg
  · have h2 := h2 ht
    subst h2
    by_cases hk : o.sendOk <;>
      simp [genEvents, callbackRun, runPhases, stepTask, hh, ht, hk,
        errorPathEvents, sendErrorResponse, isGenerate, isNotify,
        List.countP_cons, List.countP_append]
  · simp only [Bool.not_eq_true] at ht
    by_cases hk : o.sendOk <;>
      simp [genEvents, callbackRun, runPhases, stepTask, hh, ht, hk,
        errorPathEvents, sendErrorResponse, isGenerate, isNotify,
        List.countP_cons, List.countP_append]

/-- C9 witness: a concrete execution with empty history. -/
theorem C9_empty_history_greeting_witness :
    Event.sendText "p" defaultGreeting "s" ∈
      genEvents "p" "s" {} 0 (some 0) (some 0)
        ⟨.ok [], .ok ("x", false), true⟩ "cs" ∧
    (genEvents "p" "s" {} 0 (some 0) (some 0)
        ⟨.ok [], .ok ("x", false), true⟩ "cs").countP isGenerate = 0 ∧
    (genEvents "p" "s" {} 0 (some 0) (some 0)
        ⟨.ok [], .ok ("x", false), true⟩ "cs").countP isNotify = 0 ∧
    (callbackRun "p" "s" {} 0 (some 0) (some 0)
        ⟨.ok [], .ok ("x", false), true⟩ "cs").2 = false :=
  C9_empty_history_greeting "p" "s" {} 0 (some 0) (some 0)
    ⟨.ok [], .ok ("x", false), true⟩ "cs" rfl (fun _ => rfl) rfl

/-- C6: a pipeline execution whose generator returns escalate = true sends
no text and no apology to the customer, sets the escalation flag for the
key, and invokes `notifyHumanAgent` exactly once (the human-CS chat id being
distinct from the customer). -/
theorem C6_escalation_path (phone session : String) (cfg : OrchConfig)
    (pid : Nat) (cur1 cur2 : Option Nat) (o : Oracle) (cs text : String)
    (m : Msg) (ms : List Msg)
    (h1 : cur1 = some pid) (h2 : typingOn cfg = true → cur2 = some pid)
    (hh : o.history = .ok (m :: ms)) (hg : o.gen = .ok (text, true))
    (hcs : cs ≠ phone) :
    (genEvents phone session cfg pid cur1 cur2 o cs).countP
      (sendTextTo phone) = 0 ∧
    (genEvents phone session cfg pid cur1 cur2 o cs).countP isApology = 0 ∧
    (genEvents phone session cfg pid cur1 cur2 o cs).countP isNotify = 1 ∧
    (callbackRun phone session cfg pid cur1 cur2 o cs).2 = true := by
  subst h1
  by_cases ht : typingOn cfg
  · have h2 := h2 ht
    subst h2
    by_cases he : cs = "" <;>
      simp [genEvents, callbackRun, runPhases, stepTask, hh, hg, ht, he, hcs,
        notifyHumanAgent, sendTextTo, isApology, isNotify,
        List.countP_cons, List.countP_append]
  · simp only [Bool.not_eq_true] at ht
    by_cases he : cs = "" <;>
      simp [genEvents, callbackRun, runPhases, stepTask, hh, hg, ht, he, hcs,
        notifyHumanAgent, sendTextTo, isApology, isNotify,
        List.countP_cons, List.countP_append]

/-- C6 witness: a concrete escalating execution. -/
theorem C6_escalation_path_witness :
    (genEvents "p" "s" {} 0 (some 0) (some 0) oEsc "cs").countP
      (sendTextTo "p") = 0 ∧
    (genEvents "p" "s" {} 0 (some 0) (some 0) oEsc "cs").countP
      isApology = 0 ∧
    (genEvents "p" "s" {} 0 (some 0) (some 0) oEsc "cs").countP
      isNotify = 1 ∧
    (callbackRun "p" "s" {} 0 (some 0) (some 0) oEsc "cs").2 = true :=
  C6_escalation_path "p" "s" {} 0 (some 0) (some 0) oEsc "cs" "jawaban"
    ⟨false, "tolong cs"⟩ [] rfl (fun _ => rfl) rfl rfl (by decide)

/-- Helper: countP of an if-then-else whose else branch is empty. -/
theorem countP_ite_nil {α : Type} (p : α → Bool) (c : Prop) [Decidable c]
    (l : List α) :
    ((if c then l else []).countP p) = if c then l.countP p else 0 := by
  split <;> simp

/-- Helper: countP of an if-then-else whose then branch is empty. -/
theorem countP_ite_nil_left {α : Type} (p : α → Bool) (c : Prop) [Decidable c]
    (l : List α) :
    ((if c then [] else l).countP p) = if c then 0 else l.countP p := by
  split <;> simp

/-- Helper: the apology fallback is invoked at most once per execution. -/
theorem apologyCount_le_one (phone session : String) (cfg : OrchConfig)
    (pid : Nat) (cur1 cur2 : Option Nat) (o : Oracle) (cs : String) :
    (genEvents phone session cfg pid cur1 cur2 o cs).countP isApology ≤ 1 := by
  rcases o with ⟨oh, og, sk⟩
  by_cases h1 : cur1 = some pid
  · by_cases ht : typingOn cfg
    · by_cases h2 : cur2 = some pid
      · rcases oh with u | (_ | ⟨m, ms⟩) <;> rcases og with v | ⟨t, _ | _⟩ <;>
          cases sk <;>
          simp [genEvents, callbackRun, runPhases, stepTask, h1, ht, h2,
            errorPathEvents, sendErrorResponse, notifyHumanAgent, isApology,
            countP_ite_nil, countP_ite_nil_left, List.countP_cons,
            List.countP_append]
      · simp [genEvents, callbackRun, runPhases, stepTask, h1, ht, h2,
          isApology, countP_ite_nil, countP_ite_nil_left, List.countP_cons,
          List.countP_append]
    · rcases oh with u | (_ | ⟨m, ms⟩) <;> rcases og with v | ⟨t, _ | _⟩ <;>
        cases sk <;>
        simp [genEvents, callbackRun, runPhases, stepTask, h1, ht,
          errorPathEvents, sendErrorResponse, notifyHumanAgent, isApology,
          countP_ite_nil, countP_ite_nil_left, List.countP_cons,
          List.countP_append]
  · simp [genEvents, callbackRun, stepTask, h1]

/-- Helper: with the typing indicator configured on, a typing-stop precedes
the first apology invocation. -/
theorem stop_precedes_apology (phone session : String) (cfg : OrchConfig)
    (pid : Nat) (cur1 cur2 : Option Nat) (o : Oracle) (cs : String)
    (ht : typingOn cfg = true)
    (ha : 0 <
      (genEvents phone session cfg pid cur1 cur2 o cs).countP isApology) :
    1 ≤ stopsBeforeApology (genEvents phone session cfg pid cur1 cur2 o cs) := by
  rcases o with ⟨oh, og, sk⟩
  by_cases h1 : cur1 = some pid
  · by_cases h2 : cur2 = some pid
    · by_cases hs : seenOn cfg <;>
        rcases oh with u | (_ | ⟨m, ms⟩) <;> rcases og with v | ⟨t, _ | _⟩ <;>
        cases sk <;>
        simp_all [genEvents, callbackRun, runPhases, stepTask,
          errorPathEvents, sendErrorResponse, notifyHumanAgent,
          stopsBeforeApology, isApology, isTypingStop, List.takeWhile,
          List.countP_cons, List.countP_append, countP_ite_nil,
          countP_ite_nil_left]
    · exfalso
      revert ha
      by_cases hs : seenOn cfg <;>
        simp [genEvents, callbackRun, runPhases, stepTask, h1, ht, h2, hs,
          isApology, List.countP_cons, List.countP_append]
  · exfalso
    revert ha
    simp [genEvents, callbackRun, stepTask, h1]

/-- Helper: a history fetch that throws in a current generation ends in
exactly one apology invocation. -/
theorem apology_on_history_error (phone session : String) (cfg : OrchConfig)
    (pid : Nat) (cur1 cur2 : Option Nat) (o : Oracle) (cs : String)
    (h1 : cur1 = some pid) (h2 : typingOn cfg = true → cur2 = some pid)
    (hh : o.history = .error ()) :
    (genEvents phone session cfg pid cur1 cur2 o cs).countP isApology = 1 := by
  subst h1
  by_cases ht : typingOn cfg
  · have h2 := h2 ht
    subst h2
    simp [genEvents, callbackRun, runPhases, stepTask, hh, ht,
      errorPathEvents, sendErrorResponse, isApology, countP_ite_nil,
      countP_ite_nil_left, List.countP_cons, List.countP_append]
  · simp only [Bool.not_eq_true] at ht
    simp [genEvents, callbackRun, runPhases, stepTask, hh, ht,
      errorPathEvents, sendErrorResponse, isApology, countP_ite_nil,
      countP_ite_nil_left, List.countP_cons, List.countP_append]

/-- Helper: a generator that throws after a non-empty fetch in a current
generation ends in exactly one apology invocation. -/
theorem apology_on_gen_error (phone session : String) (cfg : OrchConfig)
    (pid : Nat) (cur1 cur2 : Option Nat) (o : Oracle) (cs : String)
    (m : Msg) (ms : List Msg)
    (h1 : cur1 = some pid) (h2 : typingOn cfg = true → cur2 = some pid)
    (hh : o.history = .ok (m :: ms)) (hg : o.gen = .error ()) :
    (genEvents phone session cfg pid cur1 cur2 o cs).countP isApology = 1 := by
  subst h1
  by_cases ht : typingOn cfg
  · have h2 := h2 ht
    subst h2
    simp [genEvents, callbackRun, runPhases, stepTask, hh, hg, ht,
      errorPathEvents, sendErrorResponse, isApology, countP_ite_nil,
      countP_ite_nil_left, List.countP_cons, List.countP_append]
  · simp only [Bool.not_eq_true] at ht
    simp [genEvents, callbackRun, runPhases, stepTask, hh, hg, ht,
      errorPathEvents, sendErrorResponse, isApology, countP_ite_nil,
      countP_ite_nil_left, List.countP_cons, List.countP_append]

/-- C7: all generator and transport errors are caught inside the pipeline:
the apology fallback is invoked at most once per execution; when the typing
indicator is configured on, a typing-stop precedes the first apology; a
history fetch that throws, and a generator that throws after a non-empty
fetch, both end in exactly one apology invocation instead of an escaping
error (the embedded callback and submission step are total functions, so no
error propagates to the caller of `processIncomingMessage`). -/
theorem C7_errors_caught (phone session : String) (cfg : OrchConfig)
    (pid : Nat) (cur1 cur2 : Option Nat) (o : Oracle) (cs : String) :
    (genEvents phone session cfg pid cur1 cur2 o cs).countP isApology ≤ 1 ∧
    (typingOn cfg = true →
      0 < (genEvents phone session cfg pid cur1 cur2 o cs).countP isApology →
      1 ≤ stopsBeforeApology
        (genEvents phone session cfg pid cur1 cur2 o cs)) ∧
    (cur1 = some pid → (typingOn cfg = true → cur2 = some pid) →
      o.history = .error () →
      (genEvents phone session cfg pid cur1 cur2 o cs).countP isApology = 1) ∧
    (cur1 = some pid → (typingOn cfg = true → cur2 = some pid) →
      ∀ m ms, o.history = .ok (m :: ms) → o.gen = .error () →
      (genEvents phone session cfg pid cur1 cur2 o cs).countP isApology = 1) :=
  ⟨apologyCount_le_one phone session cfg pid cur1 cur2 o cs,
   fun ht ha => stop_precedes_apology phone session cfg pid cur1 cur2 o cs ht ha,
   fun h1 h2 hh =>
     apology_on_history_error phone session cfg pid cur1 cur2 o cs h1 h2 hh,
   fun h1 h2 m ms hh hg =>
     apology_on_gen_error phone session cfg pid cur1 cur2 o cs m ms h1 h2 hh hg⟩

/-- C7 witness: a concrete execution whose history fetch throws gets exactly
one apology, preceded by a typing-stop. -/
theorem C7_errors_caught_witness :
    (genEvents "p" "s" {} 0 (some 0) (some 0)
      ⟨.error (), .ok ("x", false), true⟩ "cs").countP isApology = 1 ∧
    1 ≤ stopsBeforeApology (genEvents "p" "s" {} 0 (some 0) (some 0)
      ⟨.error (), .ok ("x", false), true⟩ "cs") := by
  have h := C7_errors_caught "p" "s" {} 0 (some 0) (some 0)
    ⟨.error (), .ok ("x", false), true⟩ "cs"
  have h3 := h.2.2.1 rfl (fun _ => rfl) rfl
  exact ⟨h3, h.2.1 rfl (by rw [h3]; exact Nat.one_pos)⟩

/-- C2 (amended): every generation emits at most one typing-start; a
generation that emitted a typing-start emits at least one and at most two
typing-stops on every continuation, exactly one except when the customer
send fails after typing was already stopped (then the catch path emits a
second stop); a generation that emitted no typing-start emits no
typing-stop. -/
theorem C2_typing_stop_amended (phone session : String) (cfg : OrchConfig)
    (pid : Nat) (cur1 cur2 : Option Nat) (o : Oracle) (cs : String) :
    (genEvents phone session cfg pid cur1 cur2 o cs).countP isTypingStart ≤ 1 ∧
    ((genEvents phone session cfg pid cur1 cur2 o cs).countP isTypingStart = 1 →
      1 ≤ (genEvents phone session cfg pid cur1 cur2 o cs).countP isTypingStop ∧
      (genEvents phone session cfg pid cur1 cur2 o cs).countP isTypingStop ≤ 2 ∧
      ((genEvents phone session cfg pid cur1 cur2 o cs).countP isTypingStop = 2 →
        o.sendOk = false)) ∧
    ((genEvents phone session cfg pid cur1 cur2 o cs).countP isTypingStart = 0 →
      (genEvents phone session cfg pid cur1 cur2 o cs).countP isTypingStop = 0) := by
  rcases o with ⟨oh, og, sk⟩
  by_cases h1 : cur1 = some pid
  · by_cases ht : typingOn cfg
    · by_cases h2 : cur2 = some pid
      · rcases oh with u | (_ | ⟨m, ms⟩) <;> rcases og with v | ⟨t, _ | _⟩ <;>
          cases sk <;>
          simp [genEvents, callbackRun, runPhases, stepTask, h1, ht, h2,
            errorPathEvents, sendErrorResponse, notifyHumanAgent,
            isTypingStart, isTypingStop, countP_ite_nil, countP_ite_nil_left,
            List.countP_cons, List.countP_append]
      · simp [genEvents, callbackRun, runPhases, stepTask, h1, ht, h2,
          isTypingStart, isTypingStop, countP_ite_nil, countP_ite_nil_left,
          List.countP_cons, List.countP_append]
    · simp only [Bool.not_eq_true] at ht
      rcases oh with u | (_ | ⟨m, ms⟩) <;> rcases og with v | ⟨t, _ | _⟩ <;>
        cases sk <;>
        simp [genEvents, callbackRun, runPhases, stepTask, h1, ht,
          errorPathEvents, sendErrorResponse, notifyHumanAgent,
          isTypingStart, isTypingStop, countP_ite_nil, countP_ite_nil_left,
          List.countP_cons, List.countP_append]
  · simp [genEvents, callbackRun, stepTask, h1]

/-- C2 witness: a current generation with a failing customer send has one
typing-start and two typing-stops, within the amended bounds. -/
theorem C2_typing_stop_amended_witness :
    1 ≤ (genEvents "p" "s" {} 0 (some 0) (some 0) oSendFail "cs").countP
      isTypingStop ∧
    (genEvents "p" "s" {} 0 (some 0) (some 0) oSendFail "cs").countP
      isTypingStop ≤ 2 := by
  have h := (C2_typing_stop_amended "p" "s" {} 0 (some 0) (some 0)
    oSendFail "cs").2.1 (by decide)
  exact ⟨h.1, h.2.1⟩

/-- Helper: inserting a key and looking it up gives the inserted value. -/
theorem alookup_ainsert_self {α : Type} (m : List (String × α)) (k : String)
    (v : α) : alookup (ainsert m k v) k = some v := by
  simp [alookup, ainsert]

/-- Helper: a segment that sets the escalation flag is the escalate branch
of the generator step: it does not delete the pending entry and it ends the
callback. -/
theorem setEscalated_segment (t : Task) (cur : Option Nat) (cs : String)
    (h : (stepTask t cur cs).setEscalated = true) :
    (stepTask t cur cs).deletePending = false ∧
    (stepTask t cur cs).next = none := by
  rcases t with ⟨tp, ts, tc, tn, ⟨oh, og, sk⟩, ph⟩
  cases ph
  case fired => by_cases hc : cur = some tn <;> simp_all [stepTask]
  case sleeping => by_cases hc : cur = some tn <;> simp_all [stepTask]
  case beforeHistory =>
    rcases oh with u | (_ | ⟨m, ms⟩) <;> cases sk <;> simp_all [stepTask]
  case beforeGenerate hist =>
    rcases og with v | ⟨t2, _ | _⟩ <;> cases sk <;> simp_all [stepTask]

/-- C3 (amended): when escalation begins (the escalated flag is set by the
escalate branch of a pipeline), only the escalation map changes: the token
map, the pending-timer map and the live timers are untouched, so no pending
timer is cleared and no generation token is invalidated; in-flight pipelines
for the key are not aborted by escalation (the flag is only consulted at
submission time). -/
theorem C3_escalation_noncancelling_amended (s : Sys) (i : Nat) (t : Task)
    (ht : s.tasks[i]? = some t)
    (hesc : (stepTask t (alookup s.active t.phone) s.csChatId).setEscalated
      = true) :
    (advanceStep i s).active = s.active ∧
    (advanceStep i s).pending = s.pending ∧
    (advanceStep i s).timers = s.timers ∧
    (advanceStep i s).escalated =
      setConversationEscalated s.escalated t.phone t.session true ∧
    isConversationEscalated (advanceStep i s).escalated t.phone t.session
      = true := by
  have hseg := setEscalated_segment t (alookup s.active t.phone) s.csChatId
    hesc
  refine ⟨?_, ?_, ?_, ?_, ?_⟩ <;>
    simp [advanceStep, ht, hesc, hseg.1, isConversationEscalated,
      setConversationEscalated, alookup_ainsert_self]

/-- C3 witness: a concrete escalating segment leaves timers, pending map and
token map unchanged while recording the flag. -/
theorem C3_escalation_noncancelling_amended_witness :
    (advanceStep 0
      { initSys "cs" with
        nextPid := 2, nextTid := 2, active := [("p", 1)],
        pending := [("p", 1)],
        timers := [⟨1, "p", "s", {}, 1, oOk⟩],
        tasks := [⟨"p", "s", {}, 0, oEsc, .beforeGenerate [⟨false, "x"⟩]⟩] }
      ).pending = [("p", 1)] ∧
    (advanceStep 0
      { initSys "cs" with
        nextPid := 2, nextTid := 2, active := [("p", 1)],
        pending := [("p", 1)],
        timers := [⟨1, "p", "s", {}, 1, oOk⟩],
        tasks := [⟨"p", "s", {}, 0, oEsc, .beforeGenerate [⟨false, "x"⟩]⟩] }
      ).timers = [⟨1, "p", "s", {}, 1, oOk⟩] ∧
    isConversationEscalated (advanceStep 0
      { initSys "cs" with
        nextPid := 2, nextTid := 2, active := [("p", 1)],
        pending := [("p", 1)],
        timers := [⟨1, "p", "s", {}, 1, oOk⟩],
        tasks := [⟨"p", "s", {}, 0, oEsc, .beforeGenerate [⟨false, "x"⟩]⟩] }
      ).escalated "p" "s" = true := by
  have h := C3_escalation_noncancelling_amended
    { initSys "cs" with
      nextPid := 2, nextTid := 2, active := [("p", 1)],
      pending := [("p", 1)],
      timers := [⟨1, "p", "s", {}, 1, oOk⟩],
      tasks := [⟨"p", "s", {}, 0, oEsc, .beforeGenerate [⟨false, "x"⟩]⟩] }
    0 ⟨"p", "s", {}, 0, oEsc, .beforeGenerate [⟨false, "x"⟩]⟩ rfl (by decide)
  exact ⟨h.2.1, h.2.2.1, h.2.2.2.2⟩

/-- Helper: the effect of an accepted submission, written as one record
update: mint the id, store it as current, cancel the pending timer if one is
live, create the fresh timer and store its handle as pending. -/
theorem submit_accepted_eq (phone session : String) (cfg : OrchConfig)
    (o : Oracle) (s : Sys) (h : Accepted s phone session cfg) :
    submitStep phone session cfg o s =
      { s with
        nextPid := s.nextPid + 1
        nextTid := s.nextTid + 1
        active := ainsert s.active phone s.nextPid
        timers :=
          (match alookup s.pending phone with
           | some tid0 => s.timers.filter (fun tm => tm.tid ≠ tid0)
           | none => s.timers) ++
          [⟨s.nextTid, phone, session, cfg, s.nextPid, o⟩]
        pending := ainsert s.pending phone s.nextTid } := by
  rcases h with ⟨h1, h2, h3⟩
  simp [submitStep, h1, h2, h3]

/-- C4 (amended): the current-token map and the pending-timer map are keyed
by the phone number alone (only the escalation map is keyed by
session:phone), so two accepted submissions for the same phone under two
different session identifiers share one slot: the second replaces the
current token of the first submission and cancels its timer. -/
theorem C4_phone_keyed_amended (s : Sys) (hwf : WF s) (phone sA sB : String)
    (cfgA cfgB : OrchConfig) (oA oB : Oracle)
    (hA : Accepted s phone sA cfgA) (hB : Accepted s phone sB cfgB) :
    alookup (stepA (.submit phone sB cfgB oB)
        (stepA (.submit phone sA cfgA oA) s)).active phone =
      some (s.nextPid + 1) ∧
    (∀ tm ∈ (stepA (.submit phone sB cfgB oB)
        (stepA (.submit phone sA cfgA oA) s)).timers, tm.pid ≠ s.nextPid) ∧
    alookup (stepA (.submit phone sB cfgB oB)
        (stepA (.submit phone sA cfgA oA) s)).pending phone =
      some (s.nextTid + 1) := by
  have e1 := submit_accepted_eq phone sA cfgA oA s hA
  have hB1 : Accepted (submitStep phone sA cfgA oA s) phone sB cfgB := by
    rcases hB with ⟨b1, b2, b3⟩
    exact ⟨by rw [e1]; exact b1, by rw [e1]; exact b2, b3⟩
  have e2 := submit_accepted_eq phone sB cfgB oB _ hB1
  simp only [stepA]
  rw [e2, e1]
  refine ⟨by simp [alookup_ainsert_self], ?_, by simp [alookup_ainsert_self]⟩
  simp only [alookup_ainsert_self]
  intro tm hm
  simp only [List.mem_append] at hm
  rcases hm with hm | hm
  · rcases List.mem_filter.mp hm with ⟨hm2, hne⟩
    simp only [List.mem_append] at hm2
    rcases hm2 with hm3 | hm3
    · have htm : tm ∈ s.timers := by
        cases halp : alookup s.pending phone <;> rw [halp] at hm3
        · exact hm3
        · exact (List.mem_filter.mp hm3).1
      have := (hwf.1 tm htm).1
      omega
    · simp only [List.mem_singleton] at hm3
      subst hm3
      simp at hne
  · simp only [List.mem_singleton] at hm
    subst hm
    simp

/-- C4 witness: a concrete state with two accepted submissions under two
sessions. -/
theorem C4_phone_keyed_amended_witness :
    alookup (stepA (.submit "p" "sessB" {} oOk)
        (stepA (.submit "p" "sessA" {} oOk) (initSys "cs"))).active "p" =
      some 1 ∧
    (∀ tm ∈ (stepA (.submit "p" "sessB" {} oOk)
        (stepA (.submit "p" "sessA" {} oOk) (initSys "cs"))).timers,
      tm.pid ≠ 0) ∧
    alookup (stepA (.submit "p" "sessB" {} oOk)
        (stepA (.submit "p" "sessA" {} oOk) (initSys "cs"))).pending "p" =
      some 1 :=
  C4_phone_keyed_amended (initSys "cs") (by simp [WF, initSys]) "p" "sessA"
    "sessB" {} {} oOk oOk ⟨by decide, by decide, by decide⟩
    ⟨by decide, by decide, by decide⟩

/-- Helper: an element of `l.set i x` is `x` or an element of `l`. -/
theorem mem_set_cases {α : Type} :
    ∀ (l : List α) (i : Nat) (x a : α), a ∈ l.set i x → a = x ∨ a ∈ l
  | [], i, x, a, h => by simp at h
  | b :: bs, 0, x, a, h => by
    simp only [List.set, List.mem_cons] at h
    rcases h with h | h
    · exact .inl h
    · exact .inr (List.mem_cons_of_mem _ h)
  | b :: bs, i + 1, x, a, h => by
    simp only [List.set, List.mem_cons] at h
    rcases h with h | h
    · exact .inr (h ▸ List.mem_cons_self _ _)
    · rcases mem_set_cases bs i x a h with h2 | h2
      · exact .inl h2
      · exact .inr (List.mem_cons_of_mem _ h2)

/-- Helper: countP accounting for removing the element at index `i`. -/
theorem countP_eraseIdx_eq {α : Type} (p : α → Bool) :
    ∀ (l : List α) (i : Nat) (x : α), l[i]? = some x →
      (l.eraseIdx i).countP p + (if p x then 1 else 0) = l.countP p
  | [], i, x, h => by simp at h
  | a :: l, 0, x, h => by
    simp only [List.getElem?_cons_zero, Option.some.injEq] at h
    subst h
    simp [List.eraseIdx, List.countP_cons]
  | a :: l, i + 1, x, h => by
    simp only [List.getElem?_cons_succ] at h
    have ih := countP_eraseIdx_eq p l i x h
    simp only [List.eraseIdx, List.countP_cons]
    omega

/-- Helper: countP accounting for replacing the element at index `i`. -/
theorem countP_set_eq {α : Type} (p : α → Bool) :
    ∀ (l : List α) (i : Nat) (x y : α), l[i]? = some x →
      (l.set i y).countP p + (if p x then 1 else 0) =
        l.countP p + (if p y then 1 else 0)
  | [], i, x, y, h => by simp at h
  | a :: l, 0, x, y, h => by
    simp only [List.getElem?_cons_zero, Option.some.injEq] at h
    subst h
    simp only [List.set, List.countP_cons]
    omega
  | a :: l, i + 1, x, y, h => by
    simp only [List.getElem?_cons_succ] at h
    have ih := countP_set_eq p l i x y h
    simp only [List.set, List.countP_cons]
    omega

/-- Helper: a filter and its complement partition a countP. -/
theorem countP_filter_partition {α : Type} (l : List α) (p q : α → Bool) :
    (l.filter q).countP p + (l.filter (fun a => !q a)).countP p =
      l.countP p := by
  induction l with
  | nil => simp
  | cons a l ih =>
    by_cases hq : q a <;> by_cases hp : p a <;>
      simp [hq, hp, List.filter_cons, List.countP_cons] <;> omega

/-- Helper: no step changes the settings service or the CS chat id, and the
fresh-id counter never decreases. -/
theorem stepA_env (a : Act) (s : Sys) :
    (stepA a s).settings = s.settings ∧ (stepA a s).csChatId = s.csChatId ∧
    s.nextPid ≤ (stepA a s).nextPid := by
  rcases a with ⟨phone, session, cfg, o⟩ | tid | i
  · simp only [stepA, submitStep]
    split_ifs <;> simp
  · simp only [stepA, expireStep]
    cases s.timers.find? (fun tm => tm.tid = tid) <;> simp
  · simp only [stepA, advanceStep]
    cases s.tasks[i]? <;> simp

/-- Helper: a dead generation stays dead across a submission. -/
theorem dead_submit (p : Nat) (phone session : String) (cfg : OrchConfig)
    (o : Oracle) (s : Sys) (hd : Dead p s) :
    Dead p (submitStep phone session cfg o s) := by
  rcases hd with ⟨h1, h2, h3, h4⟩
  unfold submitStep
  split_ifs
  · exact ⟨h1, h2, h3, h4⟩
  · exact ⟨h1, h2, h3, h4⟩
  · exact ⟨h1, h2, h3, h4⟩
  · refine ⟨by simp; omega, ?_, by simpa using h3, by simpa using h4⟩
    intro tm hm
    simp only [List.mem_append, List.mem_singleton] at hm
    rcases hm with hm | hm
    · have htm : tm ∈ s.timers := by
        rcases halp : alookup s.pending phone with _ | tid0 <;>
          rw [halp] at hm
        · exact hm
        · exact List.mem_of_mem_filter hm
      exact h2 tm htm
    · subst hm
      simp
      omega

/-- Helper: a dead generation stays dead across a timer expiry. -/
theorem dead_expire (p tid : Nat) (s : Sys) (hd : Dead p s) :
    Dead p (expireStep tid s) := by
  rcases hd with ⟨h1, h2, h3, h4⟩
  rcases hfind : s.timers.find? (fun tm => tm.tid = tid) with _ | tm
  · unfold expireStep
    rw [hfind]
    exact ⟨h1, h2, h3, h4⟩
  · have htm : tm ∈ s.timers := List.mem_of_find?_eq_some hfind
    simp only [expireStep, hfind]
    refine ⟨h1, ?_, ?_, by simpa using h4⟩
    · intro tm2 hm2
      exact h2 tm2 (List.mem_of_mem_filter hm2)
    · intro t ht2
      simp only [List.mem_append, List.mem_singleton] at ht2
      rcases ht2 with ht2 | ht2
      · exact h3 t ht2
      · subst ht2
        exact h2 tm htm

/-- Helper: a dead generation stays dead across an event-loop step. -/
theorem dead_advance (p i : Nat) (s : Sys) (hd : Dead p s) :
    Dead p (advanceStep i s) := by
  rcases hd with ⟨h1, h2, h3, h4⟩
  rcases hget : s.tasks[i]? with _ | t
  · unfold advanceStep
    rw [hget]
    exact ⟨h1, h2, h3, h4⟩
  · have htm : t ∈ s.tasks := List.getElem?_mem hget
    have hpid : t.pid ≠ p := h3 t htm
    simp only [advanceStep, hget]
    refine ⟨h1, h2, ?_, ?_⟩
    · intro t2 ht2
      rcases hnext : (stepTask t (alookup s.active t.phone) s.csChatId).next
        with _ | ph
      · rw [hnext] at ht2
        exact h3 t2 ((List.eraseIdx_sublist s.tasks i).subset ht2)
      · rw [hnext] at ht2
        rcases mem_set_cases _ _ _ _ ht2 with h | h
        · subst h
          exact hpid
        · exact h3 t2 h
    · intro e he
      simp only [List.mem_append] at he
      rcases he with he | he
      · exact h4 e he
      · rcases List.mem_map.mp he with ⟨ev, _, rfl⟩
        exact hpid

/-- Helper: a dead generation stays dead across every step. -/
theorem dead_step (p : Nat) (a : Act) (s : Sys) (hd : Dead p s) :
    Dead p (stepA a s) := by
  rcases a with ⟨phone, session, cfg, o⟩ | tid | i
  · exact dead_submit p phone session cfg o s hd
  · exact dead_expire p tid s hd
  · exact dead_advance p i s hd

/-- Helper: a dead generation stays dead across any schedule. -/
theorem dead_run (p : Nat) (acts : List Act) :
    ∀ s : Sys, Dead p s → Dead p (runActs acts s) := by
  induction acts with
  | nil => exact fun s hd => hd
  | cons a acts ih =>
    intro s hd
    exact ih (stepA a s) (dead_step p a s hd)

/-- Helper: freshness well-formedness is preserved by a submission. -/
theorem wf_submit (phone session : String) (cfg : OrchConfig) (o : Oracle)
    (s : Sys) (hwf : WF s) : WF (submitStep phone session cfg o s) := by
  rcases hwf with ⟨h1, h2, h3⟩
  unfold submitStep
  split_ifs
  · exact ⟨h1, h2, h3⟩
  · exact ⟨h1, h2, h3⟩
  · exact ⟨h1, h2, h3⟩
  · refine ⟨?_, ?_, ?_⟩
    · intro tm hm
      simp only [List.mem_append, List.mem_singleton] at hm
      rcases hm with hm | hm
      · have htm : tm ∈ s.timers := by
          rcases halp : alookup s.pending phone with _ | tid0 <;>
            rw [halp] at hm
          · exact hm
          · exact List.mem_of_mem_filter hm
        have := h1 tm htm
        simp only []
        constructor <;> omega
      · subst hm
        simp
    · intro t ht
      have := h2 t ht
      simp only []
      omega
    · intro e he
      have := h3 e he
      simp only []
      omega

/-- Helper: freshness well-formedness is preserved by a timer expiry. -/
theorem wf_expire (tid : Nat) (s : Sys) (hwf : WF s) :
    WF (expireStep tid s) := by
  rcases hwf with ⟨h1, h2, h3⟩
  rcases hfind : s.timers.find? (fun tm => tm.tid = tid) with _ | tm
  · unfold expireStep
    rw [hfind]
    exact ⟨h1, h2, h3⟩
  · have htm := List.mem_of_find?_eq_some hfind
    simp only [expireStep, hfind]
    refine ⟨?_, ?_, by simpa using h3⟩
    · intro tm2 hm2
      exact h1 tm2 (List.mem_of_mem_filter hm2)
    · intro t ht
      simp only [List.mem_append, List.mem_singleton] at ht
      rcases ht with ht | ht
      · exact h2 t ht
      · subst ht
        exact (h1 tm htm).1

/-- Helper: freshness well-formedness is preserved by an event-loop step. -/
theorem wf_advance (i : Nat) (s : Sys) (hwf : WF s) :
    WF (advanceStep i s) := by
  rcases hwf with ⟨h1, h2, h3⟩
  rcases hget : s.tasks[i]? with _ | t
  · unfold advanceStep
    rw [hget]
    exact ⟨h1, h2, h3⟩
  · have htm : t ∈ s.tasks := List.getElem?_mem hget
    have hpid := h2 t htm
    simp only [advanceStep, hget]
    refine ⟨by simpa using h1, ?_, ?_⟩
    · intro t2 ht2
      rcases hnext : (stepTask t (alookup s.active t.phone) s.csChatId).next
        with _ | ph
      · rw [hnext] at ht2
        exact h2 t2 ((List.eraseIdx_sublist s.tasks i).subset ht2)
      · rw [hnext] at ht2
        rcases mem_set_cases _ _ _ _ ht2 with h | h
        · subst h
          exact hpid
        · exact h2 t2 h
    · intro e he
      simp only [List.mem_append] at he
      rcases he with he | he
      · exact h3 e he
      · rcases List.mem_map.mp he with ⟨ev, _, rfl⟩
        exact hpid

/-- Helper: freshness well-formedness is preserved by every step. -/
theorem wf_step (a : Act) (s : Sys) (hwf : WF s) : WF (stepA a s) := by
  rcases a with ⟨phone, session, cfg, o⟩ | tid | i
  · exact wf_submit phone session cfg o s hwf
  · exact wf_expire tid s hwf
  · exact wf_advance i s hwf

/-- Helper: one callback segment reaches the send/notify step at most once,
and a segment that reaches it ends the callback (assuming the human-CS chat
id differs from the customer). -/
theorem seg_reach (t : Task) (cur : Option Nat) (cs : String)
    (hcs : cs ≠ t.phone) :
    (stepTask t cur cs).events.countP (reachb t.phone) ≤ 1 ∧
    (1 ≤ (stepTask t cur cs).events.countP (reachb t.phone) →
      (stepTask t cur cs).next = none) := by
  rcases t with ⟨tp, ts, tc, tn, ⟨oh, og, sk⟩, ph⟩
  have hcs2 : cs ≠ tp := hcs
  cases ph
  case fired =>
    by_cases hc : cur = some tn <;>
      simp [stepTask, hc, reachb, countP_ite_nil, countP_ite_nil_left,
        List.countP_cons, List.countP_append]
  case sleeping =>
    by_cases hc : cur = some tn <;>
      simp [stepTask, hc, reachb, List.countP_cons]
  case beforeHistory =>
    rcases oh with u | (_ | ⟨m, ms⟩) <;> cases sk <;>
      simp [stepTask, reachb, errorPathEvents, sendErrorResponse,
        countP_ite_nil, countP_ite_nil_left, List.countP_cons,
        List.countP_append]
  case beforeGenerate hist =>
    rcases og with v | ⟨t2, _ | _⟩ <;> cases sk <;>
      simp [stepTask, reachb, errorPathEvents, sendErrorResponse,
        notifyHumanAgent, hcs2, countP_ite_nil, countP_ite_nil_left,
        List.countP_cons, List.countP_append]

/-- Helper: single-ownership is preserved by a submission (the minted id is
fresh, so it is not the observed generation). -/
theorem occR_submit (p : Nat) (phone phone2 session : String)
    (cfg : OrchConfig) (o : Oracle) (s : Sys) (h : OccR p phone s) :
    OccR p phone (submitStep phone2 session cfg o s) := by
  rcases h with ⟨h1, h2, h3, h4, h5, h6⟩
  unfold submitStep
  split_ifs
  · exact ⟨h1, h2, h3, h4, h5, h6⟩
  · exact ⟨h1, h2, h3, h4, h5, h6⟩
  · exact ⟨h1, h2, h3, h4, h5, h6⟩
  · have hXle : (match alookup s.pending phone2 with
        | some tid0 => s.timers.filter (fun tm : Timer => tm.tid ≠ tid0)
        | none => s.timers).countP (fun tm : Timer => tm.pid = p) ≤
        s.timers.countP (fun tm : Timer => tm.pid = p) := by
      rcases halp : alookup s.pending phone2 with _ | tid0 <;>
        simp only [halp]
      · exact le_refl _
      · exact (List.filter_sublist _).countP_le _
    have hXmem : ∀ tm : Timer, tm ∈ (match alookup s.pending phone2 with
        | some tid0 => s.timers.filter (fun tm : Timer => tm.tid ≠ tid0)
        | none => s.timers) → tm ∈ s.timers := by
      intro tm hm
      rcases halp : alookup s.pending phone2 with _ | tid0 <;>
        rw [halp] at hm
      · exact hm
      · exact List.mem_of_mem_filter hm
    have hfresh : ¬(s.nextPid = p) := by omega
    refine ⟨by simp only []; omega, ?_, by simpa using h3, ?_,
      by simpa [reachCount] using h5, ?_⟩
    · intro tm hm
      simp only [List.mem_append, List.mem_singleton] at hm
      rcases hm with hm | hm
      · exact h2 tm (hXmem tm hm)
      · subst hm
        intro hp
        exact absurd hp hfresh
    · simp only [occ] at h4
      simp only [ne_eq, decide_not] at hXle
      simp [occ, List.countP_append, List.countP_cons, hfresh]
      omega
    · intro hr
      have hr2 : 1 ≤ reachCount p phone s := by
        simpa [reachCount] using hr
      have h0 := h6 hr2
      simp only [occ] at h0
      simp only [occ, List.countP_append, List.countP_cons, List.countP_nil]
      rw [if_neg (show ¬(decide (s.nextPid = p) = true) by simp [hfresh])]
      omega

/-- Helper: single-ownership is preserved by a timer expiry (the expiring
timer hands its place to the queued callback). -/
theorem occR_expire (p tid : Nat) (phone : String) (s : Sys)
    (h : OccR p phone s) : OccR p phone (expireStep tid s) := by
  rcases h with ⟨h1, h2, h3, h4, h5, h6⟩
  rcases hfind : s.timers.find? (fun tm => tm.tid = tid) with _ | tm
  · unfold expireStep
    rw [hfind]
    exact ⟨h1, h2, h3, h4, h5, h6⟩
  · have htm : tm ∈ s.timers := List.mem_of_find?_eq_some hfind
    have htid : tm.tid = tid := by simpa using List.find?_some hfind
    have hpart := countP_filter_partition s.timers
      (fun x : Timer => x.pid = p) (fun x : Timer => x.tid ≠ tid)
    have hkept : (s.timers.filter (fun x : Timer => x.tid ≠ tid)).countP
        (fun x : Timer => x.pid = p) ≤
        s.timers.countP (fun x : Timer => x.pid = p) :=
      (List.filter_sublist _).countP_le _
    simp only [expireStep, hfind]
    refine ⟨h1, ?_, ?_, ?_, by simpa [reachCount] using h5, ?_⟩
    · intro tm2 hm2
      exact h2 tm2 (List.mem_of_mem_filter hm2)
    · intro t ht
      simp only [List.mem_append, List.mem_singleton] at ht
      rcases ht with ht | ht
      · exact h3 t ht
      · subst ht
        intro hp
        exact h2 tm htm hp
    · simp only [occ] at h4
      simp only [occ, List.countP_append, List.countP_cons, List.countP_nil]
      by_cases hp : tm.pid = p
      · have hcomp : 0 < (s.timers.filter
            (fun a : Timer => !decide (a.tid ≠ tid))).countP
            (fun x : Timer => x.pid = p) := by
          refine List.countP_pos_iff.mpr ⟨tm, ?_, by simp [hp]⟩
          exact List.mem_filter.mpr ⟨htm, by simp [htid]⟩
        rw [if_pos (show decide (Task.pid
            ⟨tm.phone, tm.session, tm.cfg, tm.pid, tm.oracle, .fired⟩ = p)
            = true by simp [hp])]
        omega
      · rw [if_neg (show ¬(decide (Task.pid
            ⟨tm.phone, tm.session, tm.cfg, tm.pid, tm.oracle, .fired⟩ = p)
            = true) by simp [hp])]
        omega
    · intro hr
      have h0 := h6 (by simpa [reachCount] using hr)
      simp only [occ] at h0
      have hp : ¬(tm.pid = p) := by
        intro hp
        have hpos : 0 < s.timers.countP (fun x : Timer => x.pid = p) :=
          List.countP_pos_iff.mpr ⟨tm, htm, by simp [hp]⟩
        omega
      simp only [occ, List.countP_append, List.countP_cons, List.countP_nil]
      rw [if_neg (show ¬(decide (Task.pid
          ⟨tm.phone, tm.session, tm.cfg, tm.pid, tm.oracle, .fired⟩ = p)
          = true) by simp [hp])]
      omega

/-- Helper: single-ownership is preserved by an event-loop step (assuming
the human-CS chat id differs from the customer): the advanced task emits at
most one reach event and, having reached, is removed. -/
theorem occR_advance (p i : Nat) (phone : String) (s : Sys)
    (hcs : s.csChatId ≠ phone) (h : OccR p phone s) :
    OccR p phone (advanceStep i s) := by
  rcases h with ⟨h1, h2, h3, h4, h5, h6⟩
  rcases hget : s.tasks[i]? with _ | t
  · unfold advanceStep
    rw [hget]
    exact ⟨h1, h2, h3, h4, h5, h6⟩
  · have htm : t ∈ s.tasks := List.getElem?_mem hget
    simp only [advanceStep, hget]
    by_cases hp : t.pid = p
    · have hphone : t.phone = phone := h3 t htm hp
      have htaskpos : 0 < s.tasks.countP (fun x : Task => x.pid = p) :=
        List.countP_pos_iff.mpr ⟨t, htm, by simp [hp]⟩
      have hreach0 : reachCount p phone s = 0 := by
        by_contra hne
        have h0 := h6 (by omega)
        simp only [occ] at h0
        omega
      have hseg := seg_reach t (alookup s.active t.phone) s.csChatId
        (by rw [hphone]; exact hcs)
      have happ : (List.map (fun e => (t.pid, e))
          (stepTask t (alookup s.active t.phone) s.csChatId).events).countP
            (fun e => decide (e.1 = p) && reachb phone e.2) =
          (stepTask t (alookup s.active t.phone)
            s.csChatId).events.countP (reachb t.phone) := by
        rw [List.countP_map]
        apply List.countP_congr
        intro x _
        simp [Function.comp, hp, hphone]
      rcases hnext : (stepTask t (alookup s.active t.phone) s.csChatId).next
        with _ | ph
      · have herase := countP_eraseIdx_eq (fun x : Task => x.pid = p)
          s.tasks i t hget
        rw [if_pos (by simp [hp])] at herase
        refine ⟨h1, h2, ?_, ?_, ?_, ?_⟩
        · intro t2 ht2
          exact h3 t2 ((List.eraseIdx_sublist s.tasks i).subset ht2)
        · simp only [occ] at h4
          simp only [occ]
          omega
        · simp only [reachCount] at hreach0 ⊢
          simp only [List.countP_append, hreach0, happ]
          simpa using hseg.1
        · intro hr
          simp only [occ] at h4
          simp only [occ]
          simp only [reachCount] at hr hreach0
          simp only [List.countP_append, hreach0, happ] at hr
          omega
      · have hset := countP_set_eq (fun x : Task => x.pid = p)
          s.tasks i t { t with phase := ph } hget
        rw [if_pos (show decide (t.pid = p) = true by simp [hp])] at hset
        have hseg0 : (stepTask t (alookup s.active t.phone)
            s.csChatId).events.countP (reachb t.phone) = 0 := by
          by_contra hne
          have := hseg.2 (by omega)
          rw [hnext] at this
          cases this
        refine ⟨h1, h2, ?_, ?_, ?_, ?_⟩
        · intro t2 ht2
          rcases mem_set_cases _ _ _ _ ht2 with h | h
          · subst h
            intro _
            exact hphone
          · exact h3 t2 h
        · simp only [occ] at h4
          simp only [occ, hnext]
          omega
        · simp only [reachCount] at hreach0 ⊢
          simp only [List.countP_append, hreach0, happ, hseg0]
          omega
        · intro hr
          simp only [reachCount] at hr hreach0
          simp only [List.countP_append, hreach0, happ, hseg0] at hr
          omega
    · have happ0 : (List.map (fun e => (t.pid, e))
          (stepTask t (alookup s.active t.phone) s.csChatId).events).countP
            (fun e => decide (e.1 = p) && reachb phone e.2) = 0 := by
        rw [List.countP_map]
        simp [Function.comp, hp]
      have hoccpres : occ p (advanceStep i s) = occ p s := by
        simp only [advanceStep, hget]
        rcases hnext : (stepTask t (alookup s.active t.phone)
            s.csChatId).next with _ | ph
        · have herase := countP_eraseIdx_eq (fun x : Task => x.pid = p)
            s.tasks i t hget
          rw [if_neg (show ¬(decide (t.pid = p) = true) by simp [hp])]
            at herase
          simp only [occ]
          omega
        · have hset := countP_set_eq (fun x : Task => x.pid = p)
            s.tasks i t { t with phase := ph } hget
          rw [if_neg (show ¬(decide (t.pid = p) = true) by simp [hp])]
            at hset
          simp only [occ]
          omega
      have hoccpres2 : (match (stepTask t (alookup s.active t.phone)
          s.csChatId).next with
          | none => s.tasks.eraseIdx i
          | some ph => s.tasks.set i { t with phase := ph }).countP
            (fun x : Task => x.pid = p) =
          s.tasks.countP (fun x : Task => x.pid = p) := by
        have := hoccpres
        simp only [advanceStep, hget, occ] at this
        omega
      refine ⟨h1, h2, ?_, ?_, ?_, ?_⟩
      · intro t2 ht2
        rcases hnext : (stepTask t (alookup s.active t.phone)
            s.csChatId).next with _ | ph
        · rw [hnext] at ht2
          exact h3 t2 ((List.eraseIdx_sublist s.tasks i).subset ht2)
        · rw [hnext] at ht2
          rcases mem_set_cases _ _ _ _ ht2 with h | h
          · subst h
            intro hcontra
            exact absurd hcontra hp
          · exact h3 t2 h
      · simp only [occ] at h4 ⊢
        omega
      · simp only [reachCount] at h5 ⊢
        simp only [List.countP_append, happ0]
        omega
      · intro hr
        have hr2 : 1 ≤ reachCount p phone s := by
          simp only [reachCount] at hr ⊢
          simp only [List.countP_append, happ0] at hr
          omega
        have h0 := h6 hr2
        simp only [occ] at h0 ⊢
        omega

/-- Helper: single-ownership is preserved by every step. -/
theorem occR_step (p : Nat) (phone : String) (a : Act) (s : Sys)
    (hcs : s.csChatId ≠ phone) (h : OccR p phone s) :
    OccR p phone (stepA a s) := by
  rcases a with ⟨phone2, session, cfg, o⟩ | tid | i
  · exact occR_submit p phone phone2 session cfg o s h
  · exact occR_expire p tid phone s h
  · exact occR_advance p i phone s hcs h

/-- Helper: single-ownership is preserved by any schedule. -/
theorem occR_run (p : Nat) (phone : String) (acts : List Act) :
    ∀ s : Sys, s.csChatId ≠ phone → OccR p phone s →
      OccR p phone (runActs acts s) := by
  induction acts with
  | nil => exact fun s _ h => h
  | cons a acts ih =>
    intro s hcs h
    exact ih (stepA a s) (by rw [(stepA_env a s).2.1]; exact hcs)
      (occR_step p phone a s hcs h)

/-- Helper: a timer surviving the cancel step of a submission was live. -/
theorem mem_timers_cancel (s : Sys) (phone : String) (tm : Timer)
    (hm : tm ∈ (match alookup s.pending phone with
      | some tid0 => s.timers.filter (fun x : Timer => x.tid ≠ tid0)
      | none => s.timers)) : tm ∈ s.timers := by
  rcases halp : alookup s.pending phone with _ | tid0 <;> rw [halp] at hm
  · exact hm
  · exact List.mem_of_mem_filter hm

/-- Helper: an accepted submission leaves its fresh generation linked: the
pending entry holds the handle of the new timer, that timer is the only live
entity of the generation, and nothing has been emitted for it. -/
theorem submit_linked_fresh (phone session : String) (cfg : OrchConfig)
    (o : Oracle) (s : Sys) (hwf : WF s)
    (hacc : Accepted s phone session cfg) :
    Linked s.nextPid phone (submitStep phone session cfg o s) := by
  rw [submit_accepted_eq phone session cfg o s hacc]
  refine ⟨by simp, ⟨s.nextTid, by simp [alookup_ainsert_self], ?_⟩, ?_, ?_,
    ?_, ?_⟩
  · intro tm hm
    simp only [List.mem_append, List.mem_singleton] at hm
    rcases hm with hm | hm
    · intro hpid
      exfalso
      have htm := mem_timers_cancel s phone tm hm
      have := (hwf.1 tm htm).1
      omega
    · subst hm
      intro _
      rfl
  · have hz : (match alookup s.pending phone with
        | some tid0 => s.timers.filter (fun x : Timer => x.tid ≠ tid0)
        | none => s.timers).countP
          (fun tm : Timer => tm.pid = s.nextPid) = 0 := by
      rw [List.countP_eq_zero]
      intro tm hm
      have htm := mem_timers_cancel s phone tm hm
      have := (hwf.1 tm htm).1
      simp
      omega
    simp only [List.countP_append, List.countP_cons, List.countP_nil]
    rw [hz]
    simp
  · intro tm hm
    simp only [List.mem_append, List.mem_singleton] at hm
    rcases hm with hm | hm
    · intro hpid
      exfalso
      have htm := mem_timers_cancel s phone tm hm
      have := (hwf.1 tm htm).1
      omega
    · subst hm
      intro _
      rfl
  · intro t ht
    have := hwf.2.1 t ht
    omega
  · intro e he
    have := hwf.2.2 e he
    omega

/-- Helper: an accepted submission kills the previously linked generation:
its timers are cancelled through the pending handle, and nothing else of it
exists. -/
theorem submit_kills_linked (p : Nat) (phone session : String)
    (cfg : OrchConfig) (o : Oracle) (s : Sys)
    (hacc : Accepted s phone session cfg) (hl : Linked p phone s) :
    Dead p (submitStep phone session cfg o s) := by
  rcases hl with ⟨h1, ⟨tid0, hpend, htids⟩, hcnt, hphones, htasks, htrace⟩
  rw [submit_accepted_eq phone session cfg o s hacc]
  refine ⟨by simp; omega, ?_, by simpa using htasks, by simpa using htrace⟩
  intro tm hm
  simp only [List.mem_append, List.mem_singleton] at hm
  rcases hm with hm | hm
  · rw [hpend] at hm
    intro hpid
    have heq := htids tm (List.mem_of_mem_filter hm) hpid
    have hne := (List.mem_filter.mp hm).2
    simp [heq] at hne
  · subst hm
    simp
    omega

/-- Helper: effect of a burst of accepted submissions for one key: the
environment is unchanged, the id counter advances by the burst length,
well-formedness is kept, dead generations stay dead, a previously linked
generation dies as soon as the burst is non-empty, and the last minted
generation is linked. -/
theorem burst_run (phone session : String)
    (burst : List (OrchConfig × Oracle)) :
    ∀ s : Sys, WF s → (∀ co ∈ burst, Accepted s phone session co.1) →
      (runActs (burstActs phone session burst) s).settings = s.settings ∧
      (runActs (burstActs phone session burst) s).escalated = s.escalated ∧
      (runActs (burstActs phone session burst) s).csChatId = s.csChatId ∧
      (runActs (burstActs phone session burst) s).nextPid =
        s.nextPid + burst.length ∧
      WF (runActs (burstActs phone session burst) s) ∧
      (∀ p, Dead p s → Dead p (runActs (burstActs phone session burst) s)) ∧
      (∀ p, Linked p phone s → burst = [] ∨
        Dead p (runActs (burstActs phone session burst) s)) ∧
      (burst ≠ [] → Linked (s.nextPid + burst.length - 1) phone
        (runActs (burstActs phone session burst) s)) := by
  induction burst with
  | nil =>
    intro s hwf hacc
    refine ⟨rfl, rfl, rfl, by simp [burstActs, runActs], hwf,
      fun p hd => hd, fun p hl => Or.inl rfl, fun hne => absurd rfl hne⟩
  | cons co rest ih =>
    intro s hwf hacc
    have hacc0 : Accepted s phone session co.1 := hacc co (by simp)
    have hrun : runActs (burstActs phone session (co :: rest)) s =
        runActs (burstActs phone session rest)
          (submitStep phone session co.1 co.2 s) := by
      simp [burstActs, runActs, stepA]
    have henv := submit_accepted_eq phone session co.1 co.2 s hacc0
    have hset : (submitStep phone session co.1 co.2 s).settings =
        s.settings := by rw [henv]
    have hesc : (submitStep phone session co.1 co.2 s).escalated =
        s.escalated := by rw [henv]
    have hcs : (submitStep phone session co.1 co.2 s).csChatId =
        s.csChatId := by rw [henv]
    have hnp : (submitStep phone session co.1 co.2 s).nextPid =
        s.nextPid + 1 := by rw [henv]
    have hwf1 : WF (submitStep phone session co.1 co.2 s) :=
      wf_submit _ _ _ _ s hwf
    have hacc1 : ∀ co2 ∈ rest,
        Accepted (submitStep phone session co.1 co.2 s) phone session
          co2.1 := by
      intro co2 hco2
      rcases hacc co2 (by simp [hco2]) with ⟨a1, a2, a3⟩
      refine ⟨?_, ?_, a3⟩
      · rw [hset]
        exact a1
      · rw [hesc]
        exact a2
    have hlinked1 : Linked s.nextPid phone
        (submitStep phone session co.1 co.2 s) :=
      submit_linked_fresh phone session co.1 co.2 s hwf hacc0
    obtain ⟨g1, g2, g3, g4, g5, g6, g7, g8⟩ := ih
      (submitStep phone session co.1 co.2 s) hwf1 hacc1
    rw [hrun]
    refine ⟨by rw [g1, hset], by rw [g2, hesc], by rw [g3, hcs],
      by rw [g4, hnp]; simp; omega, g5, ?_, ?_, ?_⟩
    · intro p hd
      exact g6 p (dead_submit p phone session co.1 co.2 s hd)
    · intro p hl
      right
      have hdead1 : Dead p (submitStep phone session co.1 co.2 s) :=
        submit_kills_linked p phone session co.1 co.2 s hacc0 hl
      exact g6 p hdead1
    · intro _
      by_cases hrest : rest = []
      · subst hrest
        have harith : s.nextPid + (co :: ([] : List (OrchConfig × Oracle))).length - 1
            = s.nextPid := by simp
        rw [harith]
        simpa [burstActs, runActs] using hlinked1
      · have hl2 := g8 hrest
        have harith : (submitStep phone session co.1 co.2 s).nextPid +
            rest.length - 1 = s.nextPid + (co :: rest).length - 1 := by
          rw [hnp]
          simp
        rw [harith] at hl2
        exact hl2

/-- Helper: a linked generation satisfies single-ownership. -/
theorem occR_of_linked (p : Nat) (phone : String) (s : Sys)
    (hl : Linked p phone s) : OccR p phone s := by
  rcases hl with ⟨h1, ⟨tid0, hpend, htids⟩, hcnt, hphones, htasks, htrace⟩
  have htasks0 : s.tasks.countP (fun x : Task => x.pid = p) = 0 := by
    rw [List.countP_eq_zero]
    intro t ht
    simp [htasks t ht]
  have hreach0 : reachCount p phone s = 0 := by
    simp only [reachCount]
    rw [List.countP_eq_zero]
    intro e he
    simp [htrace e he]
  refine ⟨h1, hphones, ?_, ?_, ?_, ?_⟩
  · intro t ht hp
    exact absurd hp (htasks t ht)
  · simp only [occ]
    omega
  · omega
  · intro hr
    omega

/-- Helper: every generation of a burst other than the last is dead at the
end of the burst: its timer was cancelled by the next submission before
firing, so it never emitted anything. -/
theorem burst_dead_mid (phone session : String)
    (burst : List (OrchConfig × Oracle)) :
    ∀ s : Sys, WF s →
      (∀ co ∈ burst, Accepted s phone session co.1) →
      ∀ j, j + 1 < burst.length →
        Dead (s.nextPid + j) (runActs (burstActs phone session burst) s) := by
  induction burst with
  | nil =>
    intro s _ _ j hj
    simp at hj
  | cons co rest ih =>
    intro s hwf hacc j hj
    have hacc0 : Accepted s phone session co.1 := hacc co (by simp)
    have hrun : runActs (burstActs phone session (co :: rest)) s =
        runActs (burstActs phone session rest)
          (submitStep phone session co.1 co.2 s) := by
      simp [burstActs, runActs, stepA]
    have henv := submit_accepted_eq phone session co.1 co.2 s hacc0
    have hset : (submitStep phone session co.1 co.2 s).settings =
        s.settings := by rw [henv]
    have hesc : (submitStep phone session co.1 co.2 s).escalated =
        s.escalated := by rw [henv]
    have hnp : (submitStep phone session co.1 co.2 s).nextPid =
        s.nextPid + 1 := by rw [henv]
    have hwf1 : WF (submitStep phone session co.1 co.2 s) :=
      wf_submit _ _ _ _ s hwf
    have hacc1 : ∀ co2 ∈ rest,
        Accepted (submitStep phone session co.1 co.2 s) phone session
          co2.1 := by
      intro co2 hco2
      rcases hacc co2 (by simp [hco2]) with ⟨a1, a2, a3⟩
      refine ⟨?_, ?_, a3⟩
      · rw [hset]
        exact a1
      · rw [hesc]
        exact a2
    rw [hrun]
    rcases j with _ | j2
    · have hrest : rest ≠ [] := by
        intro hnil
        subst hnil
        simp at hj
      have hlinked1 : Linked s.nextPid phone
          (submitStep phone session co.1 co.2 s) :=
        submit_linked_fresh phone session co.1 co.2 s hwf hacc0
      obtain ⟨_, _, _, _, _, _, g7, _⟩ := burst_run phone session rest
        (submitStep phone session co.1 co.2 s) hwf1 hacc1
      rcases g7 s.nextPid hlinked1 with hnil | hdead
      · exact absurd hnil hrest
      · simpa using hdead
    · have hj2 : j2 + 1 < rest.length := by
        simp at hj
        omega
      have := ih (submitStep phone session co.1 co.2 s) hwf1 hacc1 j2 hj2
      rw [hnp] at this
      have harith : s.nextPid + 1 + j2 = s.nextPid + (j2 + 1) := by omega
      rw [harith] at this
      exact this

/-- C1 (corrected, amended): for a burst of k accepted submissions for one
key (no timer of the burst firing before the burst ends), every generation
but the last emits nothing at all in any continuation of the run, so at
most one pipeline execution reaches the send-reply or notify-human step and
it belongs to the last submission; moreover a generation that observes at a
currency check that it has been superseded stops there: stale at fire it
emits nothing, stale after the typing delay it emits only the balancing
typing-stop; in both cases it sends nothing to the customer, not even the
apology. (As the counterexample shows, a generation superseded after its
last currency check, during the history fetch, the generator call or the
send, may still send; the original claim is weakened exactly there.) -/
theorem C1_burst_amended (s : Sys) (phone session : String)
    (burst : List (OrchConfig × Oracle)) (rho : List Act)
    (hwf : WF s) (hcs : s.csChatId ≠ phone)
    (hacc : ∀ co ∈ burst, Accepted s phone session co.1)
    (hne : burst ≠ []) :
    (∀ j, j + 1 < burst.length →
      ∀ e ∈ (runActs rho (runActs (burstActs phone session burst) s)).trace,
        e.1 ≠ s.nextPid + j) ∧
    reachCount (s.nextPid + burst.length - 1) phone
      (runActs rho (runActs (burstActs phone session burst) s)) ≤ 1 ∧
    (∀ (t : Task) (cur : Option Nat) (cs : String), t.phase = .fired →
      cur ≠ some t.pid →
      stepTask t cur cs =
        { events := [], next := none, deletePending := false,
          setEscalated := false }) ∧
    (∀ (t : Task) (cur : Option Nat) (cs : String), t.phase = .sleeping →
      cur ≠ some t.pid →
      (stepTask t cur cs).events.countP (sendTextTo t.phone) = 0 ∧
      (stepTask t cur cs).events.countP isApology = 0 ∧
      (stepTask t cur cs).next = none) := by
  obtain ⟨g1, g2, g3, g4, g5, g6, g7, g8⟩ :=
    burst_run phone session burst s hwf hacc
  refine ⟨?_, ?_, ?_, ?_⟩
  · intro j hj e he
    have hdead := burst_dead_mid phone session burst s hwf hacc j hj
    have hdead2 := dead_run (s.nextPid + j) rho _ hdead
    exact hdead2.2.2.2 e he
  · have hlink := g8 hne
    have hocc := occR_of_linked _ phone _ hlink
    have hocc2 := occR_run _ phone rho _ (by rw [g3]; exact hcs) hocc
    exact hocc2.2.2.2.2.1
  · intro t cur cs hph hcur
    rcases t with ⟨tp, ts, tc, tn, to2, ph⟩
    simp only [] at hph
    subst hph
    simp [stepTask, hcur]
  · intro t cur cs hph hcur
    rcases t with ⟨tp, ts, tc, tn, to2, ph⟩
    simp only [] at hph
    subst hph
    simp [stepTask, hcur, sendTextTo, isApology]

/-- C1 witness: a two-submission burst in the initial state; generation 0
never appears in the trace and the last generation reaches the send step at
most once. -/
theorem C1_burst_amended_witness :
    (∀ e ∈ (runActs [] (runActs (burstActs "p" "s"
        [({}, oOk), ({}, oOk)]) (initSys "cs"))).trace, e.1 ≠ 0) ∧
    reachCount 1 "p" (runActs [] (runActs (burstActs "p" "s"
        [({}, oOk), ({}, oOk)]) (initSys "cs"))) ≤ 1 := by
  have h := C1_burst_amended (initSys "cs") "p" "s"
    [({}, oOk), ({}, oOk)] [] (by simp [WF, initSys]) (by decide)
    (by
      intro co hco
      simp at hco
      subst hco
      exact ⟨by decide, by decide, by decide⟩)
    (by decide)
  refine ⟨fun e he => by simpa using h.1 0 (by decide) e he, ?_⟩
  have h2 := h.2.1
  simpa using h2

end BpjsAi
